/-
Verification of the browser-automation agent core (step loop, action
registry/executor, element resolver, provider fallback, result saving).

Shallow embedding translated from the JavaScript sources:
  - src/core/src/agent.js                       (Agent.run, getStatus, saveResults,
                                                 saveExtractedData)
  - src/core/src/actions/action-executor.js     (ActionExecutor.execute)
  - src/core/src/actions/action-registry.js     (ActionRegistry)
  - src/core/src/actions/base-action.js         (BaseAction.getElement)
  - src/core/src/actions/plugins/*.js           (action plugins and their static
                                                 metadata)
  - src/core/src/llm/openrouter adapter         (OpenRouterAdapter.generateAction)

External effects (browser I/O, network, filesystem) are abstracted as oracle
inputs; machine-level behaviour of the JS runtime that the claims do not touch
(e.g. string truthiness of "" vs absence) is modelled with Option, where none
stands for an absent/falsy field.
-/
import Mathlib

namespace BrowserAgent

/-- A JSON-like value, used for extracted-data payloads and handler results. -/
inductive Value where
  | null : Value
  | bool (b : Bool) : Value
  | str (s : String) : Value
  | obj (fields : List (String × Value)) : Value

/-- Execution outcome returned by `ActionExecutor.execute` and by the action
plugins: `{success: boolean, error?: string, data?: any, message?: string}`. -/
structure ExecOutcome where
  success : Bool
  error : Option String := none
  data : Option Value := none
  message : Option String := none

/-- How a registered handler behaves when invoked.  The two terminal plugins
(`complete.js`, `terminate.js`) are pure and are modelled exactly; every other
plugin performs browser I/O and is abstracted as an external call that either
returns an outcome or throws (the `Except.error` case). -/
inductive HandlerBehavior where
  | completeH : HandlerBehavior
  | terminateH : HandlerBehavior
  | externalH : HandlerBehavior
deriving DecidableEq

/-- One entry of the action registry: the static metadata of a plugin class
(`static type / requiresElement / isTerminal`) plus its handler behaviour. -/
structure RegistryEntry where
  type : String
  requiresElement : Bool
  isTerminal : Bool
  behavior : HandlerBehavior
deriving DecidableEq

/-- The plugin classes found in `src/core/src/actions/plugins/`, in the order
`loadPlugins` registers them (directory read order).  Flags are the static
fields of each class. -/
def pluginEntries : List RegistryEntry :=
  [ { type := "click", requiresElement := true, isTerminal := false,
      behavior := .externalH },
    { type := "complete", requiresElement := false, isTerminal := true,
      behavior := .completeH },
    { type := "extract", requiresElement := false, isTerminal := false,
      behavior := .externalH },
    { type := "hover", requiresElement := true, isTerminal := false,
      behavior := .externalH },
    { type := "input_text", requiresElement := true, isTerminal := false,
      behavior := .externalH },
    { type := "mouse_click", requiresElement := false, isTerminal := false,
      behavior := .externalH },
    { type := "mouse_drag", requiresElement := false, isTerminal := false,
      behavior := .externalH },
    { type := "mouse_move", requiresElement := false, isTerminal := false,
      behavior := .externalH },
    { type := "screenshot", requiresElement := false, isTerminal := false,
      behavior := .externalH },
    { type := "terminate", requiresElement := false, isTerminal := true,
      behavior := .terminateH } ]

/-- `ActionRegistry.get`: look a kind up in a registry state,
`this.actions.get(actionType) || null`. -/
def regGetS (s : List RegistryEntry) (k : String) : Option RegistryEntry :=
  s.find? (fun e => e.type == k)

/-- `ActionRegistry.register` on a registry state: `Map.set` semantics —
overwrite the entry of an already-registered type, otherwise append. -/
def regRegister (s : List RegistryEntry) (e : RegistryEntry) : List RegistryEntry :=
  if s.any (fun x => x.type == e.type) then
    s.map (fun x => if x.type == e.type then e else x)
  else
    s ++ [e]

/-- The `ActionExecutor` constructor loads the plugins only when the singleton
registry is still empty: `if (registry.getTypes().length === 0)
registry.loadPlugins()`. -/
def loadIfEmpty (s : List RegistryEntry) : List RegistryEntry :=
  if s.isEmpty then pluginEntries else s

/-- Registry state after `n` `ActionExecutor` constructions in one process
(state starts empty at process start). -/
def registryAfter : Nat → List RegistryEntry
  | 0 => []
  | n + 1 => loadIfEmpty (registryAfter n)

/-- The loaded singleton registry used by the executor and the agent loop. -/
def theRegistry : List RegistryEntry := pluginEntries

/-- `registry.get` on the loaded singleton. -/
def registryGet (k : String) : Option RegistryEntry :=
  regGetS theRegistry k

/-- `registry.getTypes()`. -/
def getTypes : List String := theRegistry.map (fun e => e.type)

/-- `registry.requiresElement(actionType)`:
`ActionClass ? ActionClass.requiresElement : false`. -/
def requiresElementK (k : String) : Bool :=
  match registryGet k with
  | some e => e.requiresElement
  | none => false

/-- `registry.isTerminal(actionType)`:
`ActionClass ? ActionClass.isTerminal : false`. -/
def isTerminalKind (k : String) : Bool :=
  match registryGet k with
  | some e => e.isTerminal
  | none => false

/-- A parsed action as the loop sees it after `parseAction`: kind tag,
reasoning, optional element reference and the kind-specific / terminal
parameters that the claims mention. -/
structure Action where
  action_type : String
  reasoning : String := ""
  element_id : Option String := none
  extracted_data : Option Value := none
  output_format : Option String := none
  output_title : Option String := none
  reason : Option String := none

/-- `CompleteAction.execute({extracted_data})` from plugins/complete.js:
always `{success: true, data: extracted_data || null}`. -/
def completeExecute (a : Action) : ExecOutcome :=
  { success := true,
    data := some (match a.extracted_data with
      | some v => v
      | none => Value.null) }

/-- `TerminateAction.execute({reason})` from the terminate plugin: always
`{success: true, data: {terminated: true, reason: reason || 'Task terminated'}}`. -/
def terminateExecute (a : Action) : ExecOutcome :=
  { success := true,
    data := some (Value.obj
      [("terminated", Value.bool true),
       ("reason", Value.str (a.reason.getD "Task terminated"))]) }

/-- `ActionExecutor.execute(action)`: look the handler class up by kind; if
absent return the structured unknown-kind failure; otherwise run the handler
inside try/catch, so a thrown fault (`ext = .error msg`) becomes
`{success: false, error: msg}`.  The two pure terminal handlers are executed
exactly; other handlers' browser I/O result is the oracle `ext`. -/
def executeAction (a : Action) (ext : Except String ExecOutcome) : ExecOutcome :=
  match registryGet a.action_type with
  | none =>
      { success := false,
        error := some ("Unknown action type: " ++ a.action_type ++
          ". Available: " ++ String.intercalate ", " getTypes) }
  | some entry =>
      match entry.behavior with
      | .completeH => completeExecute a
      | .terminateH => terminateExecute a
      | .externalH =>
          match ext with
          | .ok r => r
          | .error msg => { success := false, error := some msg }

/-- The `result` sub-object folded into a log entry:
`{success: result.success, error: result.error}`. -/
structure StepResult where
  success : Bool
  error : Option String
deriving DecidableEq

/-- One entry of `this.actionLog`.  A step entry is
`{step, ...action, result}`; the catch-block error entry is
`{step, action_type: 'error', error: message}` (no `result`, no action
fields), hence `result` and the top-level `error` are optional. -/
structure LogEntry where
  step : Nat
  action_type : String
  reasoning : Option String := none
  element_id : Option String := none
  extracted_data : Option Value := none
  output_format : Option String := none
  output_title : Option String := none
  reason : Option String := none
  result : Option StepResult := none
  error : Option String := none

/-- The log entry appended after executing an action at a given step. -/
def stepLogEntry (step : Nat) (a : Action) (r : ExecOutcome) : LogEntry :=
  { step := step,
    action_type := a.action_type,
    reasoning := some a.reasoning,
    element_id := a.element_id,
    extracted_data := a.extracted_data,
    output_format := a.output_format,
    output_title := a.output_title,
    reason := a.reason,
    result := some { success := r.success, error := r.error } }

/-- The entry the catch block appends:
`{step: this.currentStep, action_type: 'error', error: error.message}`. -/
def errorLogEntry (step : Nat) (msg : String) : LogEntry :=
  { step := step, action_type := "error", error := some msg }

/-- What the external world does at one loop iteration: either an exception is
thrown somewhere in the iteration before the log append (page-state
extraction, the LLM call, `parseAction`), or an action is obtained and
executed, with `ext` the oracle for its handler's browser I/O. -/
inductive StepEvent where
  | throws (msg : String) : StepEvent
  | acts (a : Action) (ext : Except String ExecOutcome) : StepEvent

/-- The `while (this.currentStep < this.options.maxSteps)` loop of
`Agent.run`, with `fuel = maxSteps - currentStep` iterations remaining.
Each iteration increments the step counter, then (unless the iteration
throws) executes the decided action, appends the log entry, and breaks when
`isTerminal(action.action_type)`.  Returns the final step counter, the log,
and the exception (if one escaped to the catch block). -/
def runSteps (events : Nat → StepEvent) :
    Nat → Nat → List LogEntry → Nat × List LogEntry × Option String
  | 0, step, log => (step, log, none)
  | fuel + 1, step, log =>
    let step' := step + 1
    match events step' with
    | .throws msg => (step', log, some msg)
    | .acts a ext =>
        let r := executeAction a ext
        let log' := log ++ [stepLogEntry step' a r]
        if isTerminalKind a.action_type then
          (step', log', none)
        else
          runSteps events fuel step' log'

/-- `Agent.getStatus()` from agent.js. -/
def getStatus (actionLog : List LogEntry) (currentStep maxSteps : Nat) : String :=
  match actionLog.getLast? with
  | none => "no_actions"
  | some lastAction =>
    if lastAction.action_type = "complete" then "completed"
    else if lastAction.action_type = "terminate" then "terminated"
    else if lastAction.action_type = "error" then "error"
    else if currentStep ≥ maxSteps then "max_steps_reached"
    else "unknown"

/-- The persisted session record built by `Agent.saveResults` (`results`
object written to `data/action-logs/<sessionId>.json`). -/
structure SessionRecord where
  totalSteps : Nat
  status : String
  actionLog : List LogEntry

/-- Final state of one `Agent.run(url, goal)` call. -/
structure AgentFinal where
  currentStep : Nat
  actionLog : List LogEntry
  browserClosed : Bool
  saved : Option SessionRecord

/-- `Agent.run(url, goal)`: the body runs inside try/catch/finally.
`preLoopFail = some msg` models an exception thrown before the loop starts
(browser launch, cookie preload, initial navigation); otherwise the loop runs
with step counter 0 and an empty log.  The catch block appends the error
entry, the finally block closes the browser, and `saveResults` then builds
and persists the session record unconditionally. -/
def agentRun (maxSteps : Nat) (preLoopFail : Option String)
    (events : Nat → StepEvent) : AgentFinal :=
  let loopOut : Nat × List LogEntry × Option String :=
    match preLoopFail with
    | some msg => (0, [], some msg)
    | none => runSteps events maxSteps 0 []
  let step := loopOut.1
  let log :=
    match loopOut.2.2 with
    | some msg => loopOut.2.1 ++ [errorLogEntry step msg]
    | none => loopOut.2.1
  { currentStep := step,
    actionLog := log,
    browserClosed := true,
    saved := some
      { totalSteps := step,
        status := getStatus log step maxSteps,
        actionLog := log } }

/-- One element descriptor of the element table (`elementMap`): tag name,
structural locator (xpath) and the salient attributes the resolver uses.
`none` models an absent/falsy field. -/
structure ElementInfo where
  tag : Option String := none
  xpath : Option String := none
  name : Option String := none
  ariaLabel : Option String := none
  inputType : Option String := none

/-- A live element on the current page, abstracted to what the four lookup
strategies can observe: its tag, its structural path, and its `name`,
`aria-label` and `type` attributes. -/
structure LiveElement where
  tag : String
  xpath : Option String := none
  name : Option String := none
  ariaLabel : Option String := none
  inputType : Option String := none
deriving DecidableEq

/-- `page.locator('xpath=...')...`: first live element at the structural
path. -/
def pageByXPath (page : List LiveElement) (x : String) : Option LiveElement :=
  page.find? (fun le => le.xpath == some x)

/-- `page.$('[name="..."]')`. -/
def pageByName (page : List LiveElement) (n : String) : Option LiveElement :=
  page.find? (fun le => le.name == some n)

/-- `page.$('[aria-label="..."]')`. -/
def pageByAriaLabel (page : List LiveElement) (l : String) : Option LiveElement :=
  page.find? (fun le => le.ariaLabel == some l)

/-- `page.$('input[type="..."]')`. -/
def pageByInputType (page : List LiveElement) (t : String) : Option LiveElement :=
  page.find? (fun le => le.tag == "input" && le.inputType == some t)

/-- `BaseAction.getElement(elementId)`: after the guard checks, try the four
strategies in order — (1) the stored xpath locator, (2) the `name` attribute,
(3) the `aria-label` attribute, (4) `input[type=...]` when the declared tag is
`input` — first success wins; if all fail, throw
`Could not locate element: <id>`. -/
def getElement (page : List LiveElement)
    (elementMap : List (String × ElementInfo)) (elementId : Option String) :
    Except String LiveElement :=
  match elementId with
  | none => .error "Element ID is required"
  | some id =>
    match (elementMap.find? (fun p => p.1 == id)).map (fun p => p.2) with
    | none => .error ("Element " ++ id ++ " not found in map")
    | some info =>
      let s1 := info.xpath.bind (pageByXPath page)
      let s2 := info.name.bind (pageByName page)
      let s3 := info.ariaLabel.bind (pageByAriaLabel page)
      let s4 :=
        if info.inputType.isSome && (info.tag == some "input") then
          info.inputType.bind (pageByInputType page)
        else none
      match s1.orElse (fun _ => s2) |>.orElse (fun _ => s3) |>.orElse (fun _ => s4) with
      | some e => .ok e
      | none => .error ("Could not locate element: " ++ id)

/-- A raw decision as returned by a decision-provider adapter, before
parsing: the fields of the JSON object the LLM produces (or the adapter
synthesizes). -/
structure Decision where
  action_type : String
  reasoning : String := ""
  element_id : Option String := none
  extracted_data : Option Value := none
  output_format : Option String := none
  output_title : Option String := none
  reason : Option String := none
  errors : List String := []

/-- The safe fallback decision `OpenRouterAdapter.generateAction` returns
from its catch block: `{action_type: 'terminate', reasoning: 'LLM API error:
' + error.message, errors: [error.message]}`.  Note the object carries no
`reason` key. -/
def openRouterFallback (msg : String) : Decision :=
  { action_type := "terminate",
    reasoning := "LLM API error: " ++ msg,
    errors := [msg] }

/-- `OpenRouterAdapter.generateAction(context)`: the (rate-limited, retried)
API call either yields a parsed decision or throws; the surrounding try/catch
turns any escaped error into the safe fallback decision, so the adapter
itself never throws. -/
def generateActionOR (callResult : Except String Decision) : Decision :=
  match callResult with
  | .ok d => d
  | .error msg => openRouterFallback msg

/-- Modelled from the spec: `action-parser.js` is not under src/ (only its
callers are).  Section 4.3 of the spec says a successful `parse(rawDecision,
elementTable)` produces a well-typed action of the declared (registered) kind
and "attaches the original reasoning text unmodified (never summarized)";
the kind-specific and terminal parameters are carried over. -/
def parseActionSpec (d : Decision) : Action :=
  { action_type := d.action_type,
    reasoning := d.reasoning,
    element_id := d.element_id,
    extracted_data := d.extracted_data,
    output_format := d.output_format,
    output_title := d.output_title,
    reason := d.reason }

/-- The character class `[a-zA-Z0-9_-]` of the sanitization regex in
`Agent.saveExtractedData` (codepoint ranges A-Z, a-z, 0-9, plus underscore
and hyphen). -/
def isClassChar (c : Char) : Bool :=
  (65 ≤ c.toNat && c.toNat ≤ 90) || (97 ≤ c.toNat && c.toNat ≤ 122) ||
  (48 ≤ c.toNat && c.toNat ≤ 57) || c == '_' || c == '-'

/-- The character sanitization `title.replace(/[^a-zA-Z0-9_-]/g, '_')`
applied to one character. -/
def sanitizeChar (c : Char) : Char :=
  if isClassChar c then c else '_'

/-- `title.replace(/[^a-zA-Z0-9_-]/g, '_').toLowerCase()`: replace every
character outside `[a-zA-Z0-9_-]` with an underscore, then lower-case. -/
def sanitizeTitle (t : String) : String :=
  String.mk ((t.data.map sanitizeChar).map Char.toLower)

/-- The predicate of `this.actionLog.find(a => a.extracted_data ||
a.output_format)` in `Agent.saveExtractedData`. -/
def hasExtractedOrFormat (a : LogEntry) : Bool :=
  a.extracted_data.isSome || a.output_format.isSome

/-- The format/title/file-name-title selection of `Agent.saveExtractedData`:
`find` returns the FIRST matching log entry; then
`format = this.outputFormat || lastAction?.output_format || 'json'`,
`title = this.outputTitle || lastAction?.output_title ||
'output_' + sessionId`, and `safeTitle` is the sanitized title used in the
output file name. -/
def chooseFormatTitle (outputFormat outputTitle : Option String)
    (actionLog : List LogEntry) (sessionId : String) :
    String × String × String :=
  let lastAction := actionLog.find? hasExtractedOrFormat
  let format := (outputFormat.orElse
    (fun _ => lastAction.bind (fun a => a.output_format))).getD "json"
  let title := (outputTitle.orElse
    (fun _ => lastAction.bind (fun a => a.output_title))).getD
    ("output_" ++ sessionId)
  (format, title, sanitizeTitle title)

/-! ### Helper lemmas -/

theorem mem_of_getLast?_eq_some {α : Type} {l : List α} {a : α}
    (h : l.getLast? = some a) : a ∈ l := by
  have hm : a ∈ l.getLast? := h
  obtain ⟨hne, ha⟩ := List.mem_getLast?_eq_getLast hm
  exact ha ▸ List.getLast_mem hne

theorem getLast?_cons_of_eq_some {α : Type} {l : List α} {a b : α}
    (h : l.getLast? = some a) : (b :: l).getLast? = some a := by
  cases l with
  | nil => simp at h
  | cons x xs => rw [List.getLast?_cons_cons]; exact h

/-- A kind found in the loaded registry is one of the plugin entries, keyed by
its own `type` field. -/
theorem regGet_mem {k : String} {e : RegistryEntry}
    (h : registryGet k = some e) : e ∈ pluginEntries ∧ e.type = k := by
  unfold registryGet regGetS theRegistry at h
  refine ⟨List.mem_of_find?_eq_some h, ?_⟩
  have := List.find?_some h
  simpa using this

/-- In the loaded plugin set, the terminal entries are exactly the pure
`complete` and `terminate` plugins. -/
theorem terminal_entry_behavior :
    ∀ e ∈ pluginEntries, e.isTerminal = true →
      e.behavior = HandlerBehavior.completeH ∨
      e.behavior = HandlerBehavior.terminateH := by decide

theorem terminal_entry_type :
    ∀ e ∈ pluginEntries, e.isTerminal = true →
      e.type = "complete" ∨ e.type = "terminate" := by decide

/-- A terminal kind is dispatched to one of the two pure terminal handlers,
which always report success. -/
theorem executeAction_success_of_terminal (a : Action)
    (ext : Except String ExecOutcome)
    (h : isTerminalKind a.action_type = true) :
    (executeAction a ext).success = true := by
  cases hg : registryGet a.action_type with
  | none => simp [isTerminalKind, hg] at h
  | some e =>
      have ht : e.isTerminal = true := by simpa [isTerminalKind, hg] using h
      have hmem := (regGet_mem hg).1
      rcases terminal_entry_behavior e hmem ht with hb | hb <;>
        simp [executeAction, hg, hb, completeExecute, terminateExecute]

/-- A kind whose registry terminal flag is set is literally `complete` or
`terminate`. -/
theorem terminal_kind_eq {k : String} (h : isTerminalKind k = true) :
    k = "complete" ∨ k = "terminate" := by
  cases hg : registryGet k with
  | none => simp [isTerminalKind, hg] at h
  | some e =>
      have ht : e.isTerminal = true := by simpa [isTerminalKind, hg] using h
      obtain ⟨hmem, htype⟩ := regGet_mem hg
      rcases terminal_entry_type e hmem ht with h1 | h1
      · exact Or.inl (htype ▸ h1 ▸ rfl)
      · exact Or.inr (htype ▸ h1 ▸ rfl)

/-- An entry appended by the loop: it has a structured `result` whose success
flag is forced when the kind is terminal. -/
def GoodEntry (e : LogEntry) : Prop :=
  ∃ r : StepResult, e.result = some r ∧
    (isTerminalKind e.action_type = true → r.success = true)

/-- The loop only appends entries (the log grows by a suffix). -/
theorem runSteps_prefix (ev : Nat → StepEvent) :
    ∀ (fuel step : Nat) (log : List LogEntry),
      ∃ tail, (runSteps ev fuel step log).2.1 = log ++ tail := by
  intro fuel
  induction fuel with
  | zero => intro step log; exact ⟨[], by simp [runSteps]⟩
  | succ fuel ih =>
      intro step log
      cases hev : ev (step + 1) with
      | throws msg => exact ⟨[], by simp [runSteps, hev]⟩
      | acts a ext =>
          cases ht : isTerminalKind a.action_type with
          | true =>
              exact ⟨[stepLogEntry (step + 1) a (executeAction a ext)],
                by simp [runSteps, hev, ht]⟩
          | false =>
              obtain ⟨tail, htail⟩ := ih (step + 1)
                (log ++ [stepLogEntry (step + 1) a (executeAction a ext)])
              exact ⟨stepLogEntry (step + 1) a (executeAction a ext) :: tail,
                by simp [runSteps, hev, ht, htail]⟩

/-- Every entry the loop appends is well-formed (`GoodEntry`). -/
theorem runSteps_good (ev : Nat → StepEvent) :
    ∀ (fuel step : Nat) (log : List LogEntry) (e : LogEntry),
      e ∈ (runSteps ev fuel step log).2.1 → e ∈ log ∨ GoodEntry e := by
  intro fuel
  induction fuel with
  | zero => intro step log e he; exact Or.inl (by simpa [runSteps] using he)
  | succ fuel ih =>
      intro step log e he
      cases hev : ev (step + 1) with
      | throws msg => exact Or.inl (by simpa [runSteps, hev] using he)
      | acts a ext =>
          have hgood : GoodEntry (stepLogEntry (step + 1) a (executeAction a ext)) := by
            refine ⟨{ success := (executeAction a ext).success,
                      error := (executeAction a ext).error }, rfl, ?_⟩
            intro hterm
            exact executeAction_success_of_terminal a ext (by simpa [stepLogEntry] using hterm)
          cases ht : isTerminalKind a.action_type with
          | true =>
              simp only [runSteps, hev, ht, if_true] at he
              rcases List.mem_append.mp he with h | h
              · exact Or.inl h
              · simp only [List.mem_singleton] at h
                exact Or.inr (h ▸ hgood)
          | false =>
              simp only [runSteps, hev, ht, if_false] at he
              rcases ih (step + 1) _ e he with h | h
              · rcases List.mem_append.mp h with h' | h'
                · exact Or.inl h'
                · simp only [List.mem_singleton] at h'
                  exact Or.inr (h' ▸ hgood)
              · exact Or.inr h

/-- With every decided action's kind registered (what `parseAction`
guarantees for actions that reach execution), appended entries carry
registered kinds. -/
theorem runSteps_registered (ev : Nat → StepEvent)
    (Hreg : ∀ i a ext, ev i = StepEvent.acts a ext →
      (registryGet a.action_type).isSome = true) :
    ∀ (fuel step : Nat) (log : List LogEntry) (e : LogEntry),
      e ∈ (runSteps ev fuel step log).2.1 →
      e ∈ log ∨ (registryGet e.action_type).isSome = true := by
  intro fuel
  induction fuel with
  | zero => intro step log e he; exact Or.inl (by simpa [runSteps] using he)
  | succ fuel ih =>
      intro step log e he
      cases hev : ev (step + 1) with
      | throws msg => exact Or.inl (by simpa [runSteps, hev] using he)
      | acts a ext =>
          have hreg : (registryGet
              (stepLogEntry (step + 1) a (executeAction a ext)).action_type).isSome = true := by
            simpa [stepLogEntry] using Hreg (step + 1) a ext hev
          cases ht : isTerminalKind a.action_type with
          | true =>
              simp only [runSteps, hev, ht, if_true] at he
              rcases List.mem_append.mp he with h | h
              · exact Or.inl h
              · simp only [List.mem_singleton] at h
                exact Or.inr (h ▸ hreg)
          | false =>
              simp only [runSteps, hev, ht, if_false] at he
              rcases ih (step + 1) _ e he with h | h
              · rcases List.mem_append.mp h with h' | h'
                · exact Or.inl h'
                · simp only [List.mem_singleton] at h'
                  exact Or.inr (h' ▸ hreg)
              · exact Or.inr h

/-- When no exception escapes the loop, either the step budget was exhausted
(step counter = start + fuel) or the log ends with a terminal-kind entry. -/
theorem runSteps_exit (ev : Nat → StepEvent) :
    ∀ (fuel step : Nat) (log : List LogEntry),
      (runSteps ev fuel step log).2.2 = none →
      (runSteps ev fuel step log).1 = step + fuel ∨
      ∃ e, (runSteps ev fuel step log).2.1.getLast? = some e ∧
        isTerminalKind e.action_type = true := by
  intro fuel
  induction fuel with
  | zero => intro step log _; exact Or.inl (by simp [runSteps])
  | succ fuel ih =>
      intro step log hnone
      cases hev : ev (step + 1) with
      | throws msg => simp [runSteps, hev] at hnone
      | acts a ext =>
          cases ht : isTerminalKind a.action_type with
          | true =>
              refine Or.inr ⟨stepLogEntry (step + 1) a (executeAction a ext), ?_, ?_⟩
              · simp [runSteps, hev, ht, List.getLast?_concat]
              · simpa [stepLogEntry] using ht
          | false =>
              have hred : runSteps ev (fuel + 1) step log =
                  runSteps ev fuel (step + 1)
                    (log ++ [stepLogEntry (step + 1) a (executeAction a ext)]) := by
                simp [runSteps, hev, ht]
              rw [hred] at hnone ⊢
              rcases ih (step + 1) _ hnone with h | h
              · exact Or.inl (h.trans (by omega))
              · exact Or.inr h

/-- The entry the loop logs at step `i` when the decided action is `a i` and
the handler oracle is `x i`. -/
def nthEntry (a : Nat → Action) (x : Nat → Except String ExecOutcome)
    (i : Nat) : LogEntry :=
  stepLogEntry i (a i) (executeAction (a i) (x i))

/-- When every iteration decides a non-terminal action and nothing throws,
the loop runs its full budget: the counter advances by exactly one per
iteration and one entry per step is appended. -/
theorem runSteps_nonterminal (ev : Nat → StepEvent) (a : Nat → Action)
    (x : Nat → Except String ExecOutcome)
    (Hev : ∀ i, ev i = StepEvent.acts (a i) (x i))
    (Hnt : ∀ i, isTerminalKind (a i).action_type = false) :
    ∀ (fuel step : Nat) (log : List LogEntry),
      runSteps ev fuel step log =
        (step + fuel,
         log ++ (List.range fuel).map (fun j => nthEntry a x (step + j + 1)),
         none) := by
  intro fuel
  induction fuel with
  | zero => intro step log; simp [runSteps]
  | succ fuel ih =>
      intro step log
      have hred : runSteps ev (fuel + 1) step log =
          runSteps ev fuel (step + 1) (log ++ [nthEntry a x (step + 1)]) := by
        simp [runSteps, Hev (step + 1), Hnt (step + 1), nthEntry]
      rw [hred, ih (step + 1)]
      refine Prod.ext (by omega) (Prod.ext ?_ rfl)
      show (log ++ [nthEntry a x (step + 1)]) ++
          (List.range fuel).map (fun j => nthEntry a x (step + 1 + j + 1)) =
        log ++ (List.range (fuel + 1)).map (fun j => nthEntry a x (step + j + 1))
      rw [List.append_assoc, List.singleton_append, List.range_succ_eq_map,
        List.map_cons, List.map_map]
      congr 2
      apply List.map_congr_left
      intro j _
      show nthEntry a x (step + 1 + j + 1) = nthEntry a x (step + (j + 1) + 1)
      congr 1
      omega

/-- Shifting the base step of a block of consecutively logged entries. -/
theorem nthEntry_shift (a : Nat → Action) (x : Nat → Except String ExecOutcome)
    (step k : Nat) :
    nthEntry a x (step + 1) ::
      (List.range k).map (fun j => nthEntry a x (step + 1 + j + 1)) =
    (List.range (k + 1)).map (fun j => nthEntry a x (step + j + 1)) := by
  rw [List.range_succ_eq_map, List.map_cons, List.map_map]
  congr 1
  apply List.map_congr_left
  intro j _
  show nthEntry a x (step + 1 + j + 1) = nthEntry a x (step + (j + 1) + 1)
  congr 1
  omega

/-- If the first `k` iterations decide non-terminal actions and iteration
`k + 1` (within budget) decides a terminal one, the loop stops right after
executing it: exactly `k + 1` entries, step counter `start + k + 1`,
regardless of every action's execution outcome. -/
theorem runSteps_first_terminal (ev : Nat → StepEvent) (a : Nat → Action)
    (x : Nat → Except String ExecOutcome)
    (Hev : ∀ i, ev i = StepEvent.acts (a i) (x i)) :
    ∀ (k fuel step : Nat) (log : List LogEntry), k < fuel →
      (∀ j, j < k → isTerminalKind (a (step + j + 1)).action_type = false) →
      isTerminalKind (a (step + k + 1)).action_type = true →
      runSteps ev fuel step log =
        (step + k + 1,
         log ++ (List.range (k + 1)).map (fun j => nthEntry a x (step + j + 1)),
         none) := by
  intro k
  induction k with
  | zero =>
      intro fuel step log hk _ hterm
      cases fuel with
      | zero => omega
      | succ fuel =>
          simp only [Nat.add_zero] at hterm
          simp only [runSteps, Hev (step + 1), nthEntry, hterm, if_true]
          rfl
  | succ k ih =>
      intro fuel step log hk hpre hterm
      cases fuel with
      | zero => omega
      | succ fuel =>
          have h0 : isTerminalKind (a (step + 1)).action_type = false := by
            have := hpre 0 (by omega)
            simpa using this
          have hred : runSteps ev (fuel + 1) step log =
              runSteps ev fuel (step + 1) (log ++ [nthEntry a x (step + 1)]) := by
            simp [runSteps, Hev (step + 1), h0, nthEntry]
          have hpre' : ∀ j, j < k →
              isTerminalKind (a (step + 1 + j + 1)).action_type = false := by
            intro j hj
            have := hpre (j + 1) (by omega)
            have harith : step + (j + 1) + 1 = step + 1 + j + 1 := by omega
            rwa [harith] at this
          have hterm' : isTerminalKind (a (step + 1 + k + 1)).action_type = true := by
            have harith : step + (k + 1) + 1 = step + 1 + k + 1 := by omega
            rwa [harith] at hterm
          rw [hred, ih fuel (step + 1) _ (by omega) hpre' hterm']
          refine Prod.ext (by omega) (Prod.ext ?_ rfl)
          show (log ++ [nthEntry a x (step + 1)]) ++
              (List.range (k + 1)).map (fun j => nthEntry a x (step + 1 + j + 1)) =
            log ++ (List.range (k + 1 + 1)).map (fun j => nthEntry a x (step + j + 1))
          rw [List.append_assoc, List.singleton_append, nthEntry_shift]

/-- A character that is an ASCII lowercase letter, a digit, an underscore or
a hyphen — what may appear in a sanitized-and-lowercased file-name title. -/
def lowerSafeChar (d : Char) : Prop :=
  (97 ≤ d.toNat ∧ d.toNat ≤ 122) ∨ (48 ≤ d.toNat ∧ d.toNat ≤ 57) ∨
  d = '_' ∨ d = '-'

theorem char_toNat_ofNat {m : Nat} (h : m < 55296) : (Char.ofNat m).toNat = m := by
  unfold Char.ofNat
  rw [dif_pos (Or.inl h : Nat.isValidChar m)]
  rfl

/-- Lower-casing a sanitized character lands in the lowercase safe class. -/
theorem lowerSafe_toLower_sanitize (c : Char) :
    lowerSafeChar (Char.toLower (sanitizeChar c)) := by
  by_cases hcls : isClassChar c = true
  · rw [sanitizeChar, if_pos hcls]
    by_cases hu : 65 ≤ c.toNat ∧ c.toNat ≤ 90
    · have hlow : Char.toLower c = Char.ofNat (c.toNat + 32) := by
        unfold Char.toLower
        rw [if_pos ⟨hu.1, hu.2⟩]
      rw [hlow]
      exact Or.inl (by rw [char_toNat_ofNat (by omega)]; omega)
    · have hlow : Char.toLower c = c := by
        unfold Char.toLower
        rw [if_neg]
        intro hcon
        exact hu ⟨hcon.1, hcon.2⟩
      rw [hlow]
      simp only [isClassChar, Bool.or_eq_true, Bool.and_eq_true, decide_eq_true_eq,
        beq_iff_eq] at hcls
      rcases hcls with ((((h1 | h2) | h3) | h4) | h5)
      · omega
      · exact Or.inl h2
      · exact Or.inr (Or.inl h3)
      · exact Or.inr (Or.inr (Or.inl h4))
      · exact Or.inr (Or.inr (Or.inr h5))
  · rw [sanitizeChar, if_neg hcls]
    have : Char.toLower '_' = '_' := by decide
    rw [this]
    exact Or.inr (Or.inr (Or.inl rfl))

/-- Every character of a sanitized title is a lowercase letter, digit,
underscore or hyphen. -/
theorem sanitizeTitle_chars (t : String) :
    ∀ c ∈ (sanitizeTitle t).data, lowerSafeChar c := by
  intro c hc
  have hdata : (sanitizeTitle t).data = (t.data.map sanitizeChar).map Char.toLower := rfl
  rw [hdata, List.map_map, List.mem_map] at hc
  obtain ⟨c', _, hc'⟩ := hc
  rw [← hc']
  exact lowerSafe_toLower_sanitize c'

theorem find?_append_first {α : Type} (p : α → Bool) (pre : List α) (e : α)
    (post : List α) (hpre : ∀ x ∈ pre, p x = false) (he : p e = true) :
    (pre ++ e :: post).find? p = some e := by
  induction pre with
  | nil => simp [List.find?, he]
  | cons y ys ih =>
      have hy : p y = false := hpre y (by simp)
      simp only [List.cons_append, List.find?, hy]
      exact ih (fun x hx => hpre x (by simp [hx]))

/-- Overwriting the entry of one type leaves lookups of other types
unchanged. -/
theorem find?_map_overwrite (s : List RegistryEntry) (e : RegistryEntry)
    (k : String) (h : (e.type == k) = false) :
    (s.map (fun x => if x.type == e.type then e else x)).find?
      (fun x => x.type == k) = s.find? (fun x => x.type == k) := by
  induction s with
  | nil => rfl
  | cons x xs ih =>
      by_cases hx : (x.type == e.type) = true
      · have hxk : (x.type == k) = false := by
          have hxe : x.type = e.type := by simpa using hx
          simpa [hxe] using h
        simp only [List.map_cons, List.find?, hx, if_true, h, hxk]
        exact ih
      · simp only [List.map_cons, List.find?, hx, Bool.false_eq_true, if_false]
        cases hxk : (x.type == k) with
        | true => simp [List.find?, hxk]
        | false => simpa [List.find?, hxk] using ih

/-- Appending a new entry of a different type leaves a lookup unchanged. -/
theorem find?_append_single (s : List RegistryEntry) (e : RegistryEntry)
    (k : String) (h : (e.type == k) = false) :
    (s ++ [e]).find? (fun x => x.type == k) = s.find? (fun x => x.type == k) := by
  induction s with
  | nil => simp [List.find?, h]
  | cons x xs ih =>
      cases hxk : (x.type == k) with
      | true => simp [List.find?, hxk]
      | false => simpa [List.find?, hxk] using ih

/-- A registered non-terminal kind is none of the three status-determining
kind strings. -/
theorem registered_nonterminal_kind {k : String}
    (hreg : (registryGet k).isSome = true) (hnt : isTerminalKind k = false) :
    k ≠ "complete" ∧ k ≠ "terminate" ∧ k ≠ "error" := by
  refine ⟨?_, ?_, ?_⟩ <;> rintro rfl
  · exact absurd hnt (by decide)
  · exact absurd hnt (by decide)
  · exact absurd hreg (by decide)

theorem getStatus_max {log : List LogEntry} {s m : Nat} {e : LogEntry}
    (hlast : log.getLast? = some e)
    (h1 : e.action_type ≠ "complete") (h2 : e.action_type ≠ "terminate")
    (h3 : e.action_type ≠ "error") (hs : s ≥ m) :
    getStatus log s m = "max_steps_reached" := by
  simp [getStatus, hlast, h1, h2, h3, hs]

/-- The status characterization that actually holds of `getStatus` at save
time: the result is one of the five values, `no_actions` exactly on an empty
log, `completed` / `terminated` / `error` exactly by the last entry's kind
(checked in that priority), `max_steps_reached` exactly when the last
entry's kind is none of those three, and in that case the step counter has
reached the configured maximum. -/
def StatusSpec (L : List LogEntry) (s m : Nat) : Prop :=
  (getStatus L s m = "no_actions" ∨ getStatus L s m = "completed" ∨
   getStatus L s m = "terminated" ∨ getStatus L s m = "error" ∨
   getStatus L s m = "max_steps_reached") ∧
  (getStatus L s m = "no_actions" ↔ L = []) ∧
  (getStatus L s m = "completed" ↔
    ∃ e, L.getLast? = some e ∧ e.action_type = "complete") ∧
  (getStatus L s m = "terminated" ↔
    ∃ e, L.getLast? = some e ∧ e.action_type ≠ "complete" ∧
      e.action_type = "terminate") ∧
  (getStatus L s m = "error" ↔
    ∃ e, L.getLast? = some e ∧ e.action_type ≠ "complete" ∧
      e.action_type ≠ "terminate" ∧ e.action_type = "error") ∧
  (getStatus L s m = "max_steps_reached" ↔
    ∃ e, L.getLast? = some e ∧ e.action_type ≠ "complete" ∧
      e.action_type ≠ "terminate" ∧ e.action_type ≠ "error") ∧
  (getStatus L s m = "max_steps_reached" → s ≥ m)

/-- `StatusSpec` holds whenever the log/step pair satisfies the
reachability fact the loop guarantees: a last entry whose kind is none of
`complete`/`terminate`/`error` only occurs with an exhausted step budget. -/
theorem statusSpec_of (L : List LogEntry) (s m : Nat)
    (Hmax : ∀ e, L.getLast? = some e → e.action_type ≠ "complete" →
      e.action_type ≠ "terminate" → e.action_type ≠ "error" → s ≥ m) :
    StatusSpec L s m := by
  cases hlast : L.getLast? with
  | none =>
      have hnil : L = [] := List.getLast?_eq_none_iff.mp hlast
      have hst : getStatus L s m = "no_actions" := by simp [getStatus, hlast]
      refine ⟨Or.inl hst, by rw [hst]; exact ⟨fun _ => hnil, fun _ => rfl⟩,
        ?_, ?_, ?_, ?_, ?_⟩ <;>
        simp [hst, hlast] <;> decide
  | some e =>
      by_cases h1 : e.action_type = "complete"
      · have hst : getStatus L s m = "completed" := by simp [getStatus, hlast, h1]
        refine ⟨Or.inr (Or.inl hst), ?_, ?_, ?_, ?_, ?_, ?_⟩
        · rw [hst]
          constructor
          · intro h; exact absurd h (by decide)
          · intro h; rw [h] at hlast; simp at hlast
        · exact ⟨fun _ => ⟨e, hlast, h1⟩, fun _ => hst⟩
        · rw [hst]
          constructor
          · intro h; exact absurd h (by decide)
          · rintro ⟨e', he', hne, _⟩
            rw [hlast] at he'; cases he'; exact absurd h1 hne
        · rw [hst]
          constructor
          · intro h; exact absurd h (by decide)
          · rintro ⟨e', he', hne, _⟩
            rw [hlast] at he'; cases he'; exact absurd h1 hne
        · rw [hst]
          constructor
          · intro h; exact absurd h (by decide)
          · rintro ⟨e', he', hne, _⟩
            rw [hlast] at he'; cases he'; exact absurd h1 hne
        · rw [hst]; intro h; exact absurd h (by decide)
      · by_cases h2 : e.action_type = "terminate"
        · have hst : getStatus L s m = "terminated" := by
            simp [getStatus, hlast, h1, h2]
          refine ⟨Or.inr (Or.inr (Or.inl hst)), ?_, ?_, ?_, ?_, ?_, ?_⟩
          · rw [hst]
            constructor
            · intro h; exact absurd h (by decide)
            · intro h; rw [h] at hlast; simp at hlast
          · rw [hst]
            constructor
            · intro h; exact absurd h (by decide)
            · rintro ⟨e', he', hc⟩
              rw [hlast] at he'; cases he'; exact absurd hc h1
          · exact ⟨fun _ => ⟨e, hlast, h1, h2⟩, fun _ => hst⟩
          · rw [hst]
            constructor
            · intro h; exact absurd h (by decide)
            · rintro ⟨e', he', _, hne, _⟩
              rw [hlast] at he'; cases he'; exact absurd h2 hne
          · rw [hst]
            constructor
            · intro h; exact absurd h (by decide)
            · rintro ⟨e', he', _, hne, _⟩
              rw [hlast] at he'; cases he'; exact absurd h2 hne
          · rw [hst]; intro h; exact absurd h (by decide)
        · by_cases h3 : e.action_type = "error"
          · have hst : getStatus L s m = "error" := by
              simp [getStatus, hlast, h1, h2, h3]
            refine ⟨Or.inr (Or.inr (Or.inr (Or.inl hst))), ?_, ?_, ?_, ?_, ?_, ?_⟩
            · rw [hst]
              constructor
              · intro h; exact absurd h (by decide)
              · intro h; rw [h] at hlast; simp at hlast
            · rw [hst]
              constructor
              · intro h; exact absurd h (by decide)
              · rintro ⟨e', he', hc⟩
                rw [hlast] at he'; cases he'; exact absurd hc h1
            · rw [hst]
              constructor
              · intro h; exact absurd h (by decide)
              · rintro ⟨e', he', _, hc⟩
                rw [hlast] at he'; cases he'; exact absurd hc h2
            · exact ⟨fun _ => ⟨e, hlast, h1, h2, h3⟩, fun _ => hst⟩
            · rw [hst]
              constructor
              · intro h; exact absurd h (by decide)
              · rintro ⟨e', he', _, _, hne⟩
                rw [hlast] at he'; cases he'; exact absurd h3 hne
            · rw [hst]; intro h; exact absurd h (by decide)
          · have hs : s ≥ m := Hmax e hlast h1 h2 h3
            have hst : getStatus L s m = "max_steps_reached" :=
              getStatus_max hlast h1 h2 h3 hs
            refine ⟨Or.inr (Or.inr (Or.inr (Or.inr hst))), ?_, ?_, ?_, ?_, ?_, ?_⟩
            · rw [hst]
              constructor
              · intro h; exact absurd h (by decide)
              · intro h; rw [h] at hlast; simp at hlast
            · rw [hst]
              constructor
              · intro h; exact absurd h (by decide)
              · rintro ⟨e', he', hc⟩
                rw [hlast] at he'; cases he'; exact absurd hc h1
            · rw [hst]
              constructor
              · intro h; exact absurd h (by decide)
              · rintro ⟨e', he', _, hc⟩
                rw [hlast] at he'; cases he'; exact absurd hc h2
            · rw [hst]
              constructor
              · intro h; exact absurd h (by decide)
              · rintro ⟨e', he', _, _, hc⟩
                rw [hlast] at he'; cases he'; exact absurd hc h3
            · exact ⟨fun _ => ⟨e, hlast, h1, h2, h3⟩, fun _ => hst⟩
            · rw [hst]; intro _; exact hs

/-! ### Claim theorems -/

/-- C3: `ActionExecutor.execute` always returns a structured outcome and
never lets an exception escape: an unregistered kind yields a failure
outcome whose error names the unknown kind and lists all registered kinds;
a handler that throws is captured as a failure outcome carrying the thrown
message; and after a failed non-terminal action the step loop proceeds to
the next iteration with the failure logged, instead of aborting. -/
theorem C3_executor_structured_outcome :
    (∀ (a : Action) (ext : Except String ExecOutcome),
      registryGet a.action_type = none →
      executeAction a ext =
        { success := false,
          error := some ("Unknown action type: " ++ a.action_type ++
            ". Available: " ++ String.intercalate ", " getTypes) }) ∧
    (∀ (a : Action) (e : RegistryEntry) (msg : String),
      registryGet a.action_type = some e →
      e.behavior = HandlerBehavior.externalH →
      executeAction a (Except.error msg) =
        { success := false, error := some msg }) ∧
    (∀ (ev : Nat → StepEvent) (a : Action) (ext : Except String ExecOutcome)
       (fuel step : Nat) (log : List LogEntry),
      ev (step + 1) = StepEvent.acts a ext →
      isTerminalKind a.action_type = false →
      runSteps ev (fuel + 1) step log =
        runSteps ev fuel (step + 1)
          (log ++ [stepLogEntry (step + 1) a (executeAction a ext)])) := by
  refine ⟨?_, ?_, ?_⟩
  · intro a ext h
    simp [executeAction, h]
  · intro a e msg h hb
    simp [executeAction, h, hb]
  · intro ev a ext fuel step log hev ht
    simp [runSteps, hev, ht]

/-- Witness for C3 at concrete inputs: an unknown kind, a click handler that
throws, and a one-step continuation of the loop. -/
theorem C3_executor_structured_outcome_witness :
    executeAction { action_type := "dance" } (Except.ok { success := true }) =
      { success := false,
        error := some ("Unknown action type: dance. Available: " ++
          "click, complete, extract, hover, input_text, mouse_click, " ++
          "mouse_drag, mouse_move, screenshot, terminate") } ∧
    executeAction { action_type := "click" } (Except.error "boom") =
      { success := false, error := some "boom" } ∧
    runSteps (fun _ => StepEvent.acts { action_type := "click" }
        (Except.error "boom")) 1 0 [] =
      runSteps (fun _ => StepEvent.acts { action_type := "click" }
        (Except.error "boom")) 0 1
        [stepLogEntry 1 { action_type := "click" }
          (executeAction { action_type := "click" } (Except.error "boom"))] := by
  refine ⟨?_, ?_, ?_⟩
  · have h := C3_executor_structured_outcome.1
      { action_type := "dance" } (Except.ok { success := true }) (by decide)
    rw [h]
    rfl
  · exact C3_executor_structured_outcome.2.1 { action_type := "click" }
      { type := "click", requiresElement := true, isTerminal := false,
        behavior := .externalH } "boom" (by decide) rfl
  · exact C3_executor_structured_outcome.2.2 _ _ _ 0 0 [] rfl (by decide)

/-- C8: the per-kind metadata flags are fixed once the plugin set is loaded —
further executor constructions never change the registry, registering an
additional kind leaves lookups of other kinds unchanged, and looking up an
unregistered kind returns none from `get` and a defined false from
`requiresElement` / `isTerminal`, never throwing. -/
theorem C8_registry_flags_fixed :
    (∀ n : Nat, registryAfter (n + 1) = pluginEntries) ∧
    (∀ (s : List RegistryEntry) (e : RegistryEntry) (k : String),
      k ≠ e.type → regGetS (regRegister s e) k = regGetS s k) ∧
    (∀ k : String, k ∉ getTypes →
      registryGet k = none ∧ requiresElementK k = false ∧
      isTerminalKind k = false) := by
  refine ⟨?_, ?_, ?_⟩
  · intro n
    induction n with
    | zero => rfl
    | succ n ih =>
        show loadIfEmpty (registryAfter (n + 1)) = pluginEntries
        rw [ih]
        rfl
  · intro s e k h
    have hbeq : (e.type == k) = false := by
      simp [beq_eq_false_iff_ne]
      exact fun hc => h hc.symm
    unfold regRegister regGetS
    by_cases hany : s.any (fun x => x.type == e.type) = true
    · rw [if_pos hany]
      exact find?_map_overwrite s e k hbeq
    · rw [if_neg hany]
      exact find?_append_single s e k hbeq
  · intro k hk
    have hnone : registryGet k = none := by
      unfold registryGet regGetS
      apply List.find?_eq_none.mpr
      intro x hx hbx
      apply hk
      have hxk : x.type = k := by simpa using hbx
      exact hxk ▸ List.mem_map_of_mem (fun e => e.type) hx
    exact ⟨hnone, by simp [requiresElementK, hnone], by simp [isTerminalKind, hnone]⟩

/-- Witness for C8 at concrete inputs: one reload, a fresh registration not
touching an existing kind, and an unregistered kind lookup. -/
theorem C8_registry_flags_fixed_witness :
    registryAfter 3 = pluginEntries ∧
    regGetS (regRegister pluginEntries
        { type := "scroll", requiresElement := false, isTerminal := false,
          behavior := .externalH }) "click" = regGetS pluginEntries "click" ∧
    (registryGet "goto_url" = none ∧ requiresElementK "goto_url" = false ∧
      isTerminalKind "goto_url" = false) := by
  refine ⟨C8_registry_flags_fixed.1 2,
    C8_registry_flags_fixed.2.1 pluginEntries _ "click" (by decide),
    C8_registry_flags_fixed.2.2 "goto_url" (by decide)⟩

/-- C4: element resolution tries the four strategies in order with first
success winning — stored structural locator, `name` attribute, `aria-label`
attribute, `input[type]` within the declared tag — so a descriptor matching
a live element only by `aria-label` still resolves, and when no strategy
matches any live element, resolution fails with the element-not-found
error. -/
theorem C4_element_resolution_layered :
    (∀ (page : List LiveElement) (m : List (String × ElementInfo))
       (id : String) (info : ElementInfo) (e : LiveElement),
      (m.find? (fun p => p.1 == id)).map (fun p => p.2) = some info →
      info.xpath.bind (pageByXPath page) = none →
      info.name.bind (pageByName page) = none →
      info.ariaLabel.bind (pageByAriaLabel page) = some e →
      getElement page m (some id) = Except.ok e) ∧
    (∀ (page : List LiveElement) (m : List (String × ElementInfo))
       (id : String) (info : ElementInfo) (e : LiveElement),
      (m.find? (fun p => p.1 == id)).map (fun p => p.2) = some info →
      info.xpath.bind (pageByXPath page) = some e →
      getElement page m (some id) = Except.ok e) ∧
    (∀ (page : List LiveElement) (m : List (String × ElementInfo))
       (id : String) (info : ElementInfo) (e : LiveElement),
      (m.find? (fun p => p.1 == id)).map (fun p => p.2) = some info →
      info.xpath.bind (pageByXPath page) = none →
      info.name.bind (pageByName page) = some e →
      getElement page m (some id) = Except.ok e) ∧
    (∀ (page : List LiveElement) (m : List (String × ElementInfo))
       (id : String) (info : ElementInfo) (e : LiveElement),
      (m.find? (fun p => p.1 == id)).map (fun p => p.2) = some info →
      info.xpath.bind (pageByXPath page) = none →
      info.name.bind (pageByName page) = none →
      info.ariaLabel.bind (pageByAriaLabel page) = none →
      (if info.inputType.isSome && (info.tag == some "input") then
        info.inputType.bind (pageByInputType page) else none) = some e →
      getElement page m (some id) = Except.ok e) ∧
    (∀ (page : List LiveElement) (m : List (String × ElementInfo))
       (id : String) (info : ElementInfo),
      (m.find? (fun p => p.1 == id)).map (fun p => p.2) = some info →
      info.xpath.bind (pageByXPath page) = none →
      info.name.bind (pageByName page) = none →
      info.ariaLabel.bind (pageByAriaLabel page) = none →
      (if info.inputType.isSome && (info.tag == some "input") then
        info.inputType.bind (pageByInputType page) else none) = none →
      getElement page m (some id) =
        Except.error ("Could not locate element: " ++ id)) := by
  refine ⟨?_, ?_, ?_, ?_, ?_⟩
  · intro page m id info e hm h1 h2 h3
    simp [getElement, hm, h1, h2, h3, Option.orElse]
  · intro page m id info e hm h1
    simp [getElement, hm, h1, Option.orElse]
  · intro page m id info e hm h1 h2
    simp [getElement, hm, h1, h2, Option.orElse]
  · intro page m id info e hm h1 h2 h3 h4
    simp only [Bool.and_eq_true, beq_iff_eq] at h4
    simp [getElement, hm, h1, h2, h3, h4, Option.orElse]
  · intro page m id info hm h1 h2 h3 h4
    simp only [Bool.and_eq_true, beq_iff_eq] at h4
    simp [getElement, hm, h1, h2, h3, h4, Option.orElse]

/-- Witness for C4: a descriptor whose stored xpath is stale and that
matches a live element only by `aria-label` still resolves; with no live
match at all, resolution fails with the element-not-found error. -/
theorem C4_element_resolution_layered_witness :
    getElement [{ tag := "input", ariaLabel := some "Search" }]
      [("e1", { tag := some "input", xpath := some "/html/body/input[1]",
                ariaLabel := some "Search" })] (some "e1") =
      Except.ok { tag := "input", ariaLabel := some "Search" } ∧
    getElement [] [("e2", { tag := some "div", xpath := some "/x" })]
      (some "e2") =
      Except.error "Could not locate element: e2" :=
  ⟨C4_element_resolution_layered.1
      [{ tag := "input", ariaLabel := some "Search" }]
      [("e1", { tag := some "input", xpath := some "/html/body/input[1]",
                ariaLabel := some "Search" })] "e1"
      { tag := some "input", xpath := some "/html/body/input[1]",
        ariaLabel := some "Search" }
      { tag := "input", ariaLabel := some "Search" } rfl rfl rfl rfl,
   C4_element_resolution_layered.2.2.2.2
      [] [("e2", { tag := some "div", xpath := some "/x" })] "e2"
      { tag := some "div", xpath := some "/x" } rfl rfl rfl rfl rfl⟩

/-- C5 counterexample: on provider failure the synthesized fallback decision
does NOT carry the error text in its `reason` field — the `reason` field is
absent, the text lands (prefixed) in the `reasoning` field, and a terminate
handler executing the fallback therefore reports the default reason
`Task terminated`, not the error text. -/
theorem C5_fallback_reason_counterexample :
    (generateActionOR (Except.error "connection refused")).action_type =
      "terminate" ∧
    (generateActionOR (Except.error "connection refused")).reason = none ∧
    (generateActionOR (Except.error "connection refused")).reasoning =
      "LLM API error: connection refused" ∧
    terminateExecute
        (parseActionSpec (generateActionOR (Except.error "connection refused"))) =
      { success := true,
        data := some (Value.obj
          [("terminated", Value.bool true),
           ("reason", Value.str "Task terminated")]) } := by
  refine ⟨rfl, rfl, rfl, rfl⟩

/-- C5 (amended): when the provider call fails after retries, the adapter
itself returns (never throws) a structurally valid decision of kind
`terminate` that carries the underlying error text, prefixed with
`LLM API error: `, in its `reasoning` field (and verbatim in its `errors`
list); consequently the session's last log entry has kind `terminate`, with
the prefixed error text as its logged reasoning, and the loop stops there. -/
theorem C5_provider_fallback_terminates (msg : String) (maxSteps : Nat)
    (ev : Nat → StepEvent) (ext : Except String ExecOutcome)
    (hms : 1 ≤ maxSteps)
    (hev : ev 1 = StepEvent.acts
      (parseActionSpec (generateActionOR (Except.error msg))) ext) :
    (generateActionOR (Except.error msg)).action_type = "terminate" ∧
    (generateActionOR (Except.error msg)).reasoning = "LLM API error: " ++ msg ∧
    (generateActionOR (Except.error msg)).errors = [msg] ∧
    (∃ e, (agentRun maxSteps none ev).actionLog.getLast? = some e ∧
      e.action_type = "terminate" ∧
      e.reasoning = some ("LLM API error: " ++ msg)) ∧
    (agentRun maxSteps none ev).currentStep = 1 := by
  refine ⟨rfl, rfl, rfl, ?_, ?_⟩
  all_goals
    obtain ⟨fuel, rfl⟩ : ∃ fuel, maxSteps = fuel + 1 :=
      ⟨maxSteps - 1, by omega⟩
  · refine ⟨stepLogEntry 1 (parseActionSpec (generateActionOR (Except.error msg)))
      (executeAction (parseActionSpec (generateActionOR (Except.error msg))) ext),
      ?_, rfl, rfl⟩
    show (agentRun (fuel + 1) none ev).actionLog.getLast? = _
    simp [agentRun, runSteps, hev, isTerminalKind, registryGet, regGetS,
      theRegistry, pluginEntries, parseActionSpec, generateActionOR,
      openRouterFallback, List.getLast?]
  · show (agentRun (fuel + 1) none ev).currentStep = 1
    simp [agentRun, runSteps, hev, isTerminalKind, registryGet, regGetS,
      theRegistry, pluginEntries, parseActionSpec, generateActionOR,
      openRouterFallback]

/-- Witness for C5 at a concrete error message and budget. -/
theorem C5_provider_fallback_terminates_witness :
    (generateActionOR (Except.error "HTTP 429")).action_type = "terminate" ∧
    (generateActionOR (Except.error "HTTP 429")).reasoning =
      "LLM API error: " ++ "HTTP 429" ∧
    (generateActionOR (Except.error "HTTP 429")).errors = ["HTTP 429"] ∧
    (∃ e, (agentRun 5 none (fun _ => StepEvent.acts
        (parseActionSpec (generateActionOR (Except.error "HTTP 429")))
        (Except.ok { success := true }))).actionLog.getLast? = some e ∧
      e.action_type = "terminate" ∧
      e.reasoning = some ("LLM API error: " ++ "HTTP 429")) ∧
    (agentRun 5 none (fun _ => StepEvent.acts
        (parseActionSpec (generateActionOR (Except.error "HTTP 429")))
        (Except.ok { success := true }))).currentStep = 1 :=
  C5_provider_fallback_terminates "HTTP 429" 5 _ _ (by omega) rfl

/-- C10: when no terminal action set an output format or title on the agent,
`saveExtractedData` takes the format and title from the EARLIEST log entry
having an `extracted_data` or `output_format` field (defaulting to `json`
and `output_<sessionId>`), and the file-name title is sanitized to lowercase
characters from `[a-z0-9_-]`. -/
theorem C10_extracted_output_selection :
    (∀ (sid : String) (pre post : List LogEntry) (e : LogEntry),
      (∀ x ∈ pre, hasExtractedOrFormat x = false) →
      hasExtractedOrFormat e = true →
      chooseFormatTitle none none (pre ++ e :: post) sid =
        (e.output_format.getD "json",
         e.output_title.getD ("output_" ++ sid),
         sanitizeTitle (e.output_title.getD ("output_" ++ sid)))) ∧
    (∀ (sid : String) (log : List LogEntry),
      (∀ x ∈ log, hasExtractedOrFormat x = false) →
      chooseFormatTitle none none log sid =
        ("json", "output_" ++ sid, sanitizeTitle ("output_" ++ sid))) ∧
    (∀ t : String, ∀ c ∈ (sanitizeTitle t).data, lowerSafeChar c) := by
  refine ⟨?_, ?_, sanitizeTitle_chars⟩
  · intro sid pre post e hpre he
    unfold chooseFormatTitle
    rw [find?_append_first hasExtractedOrFormat pre e post hpre he]
    simp [Option.orElse]
  · intro sid log hlog
    unfold chooseFormatTitle
    have hnone : log.find? hasExtractedOrFormat = none :=
      List.find?_eq_none.mpr (fun x hx => by simp [hlog x hx])
    rw [hnone]
    simp [Option.orElse]

/-- Witness for C10: the first matching entry (not the last) supplies format
and title, defaults apply when nothing matches, and a mixed-case title with
punctuation sanitizes to `[a-z0-9_-]`. -/
theorem C10_extracted_output_selection_witness :
    chooseFormatTitle none none
        [{ step := 1, action_type := "click" },
         { step := 2, action_type := "extract",
           output_format := some "markdown", output_title := some "My Report!" },
         { step := 3, action_type := "complete",
           output_format := some "json", output_title := some "Other" }] "S1" =
      ("markdown", "My Report!", "my_report_") ∧
    chooseFormatTitle none none [{ step := 1, action_type := "click" }] "S1" =
      ("json", "output_S1", "output_s1") ∧
    sanitizeTitle "My Report!" = "my_report_" := by
  refine ⟨?_, ?_, rfl⟩
  · have h := C10_extracted_output_selection.1 "S1"
      [{ step := 1, action_type := "click" }]
      [{ step := 3, action_type := "complete",
         output_format := some "json", output_title := some "Other" }]
      { step := 2, action_type := "extract",
        output_format := some "markdown", output_title := some "My Report!" }
      (by intro x hx; simp at hx; subst hx; rfl) rfl
    simpa using h
  · have h := C10_extracted_output_selection.2.1 "S1"
      [{ step := 1, action_type := "click" }]
      (by intro x hx; simp at hx; subst hx; rfl)
    simpa using h

/-- C1: however the step loop exits — terminal action, exhausted budget, or
an exception at any point (before the loop or inside any iteration) — the
browser is closed and a session record is persisted whose log is the final
action log, with the log accumulated by the loop as a prefix (no partial
progress is lost), and whose step count and status are those of the final
state. -/
theorem C1_close_and_persist_on_every_exit (maxSteps : Nat)
    (preLoopFail : Option String) (ev : Nat → StepEvent) :
    (agentRun maxSteps preLoopFail ev).browserClosed = true ∧
    (∃ rec : SessionRecord,
      (agentRun maxSteps preLoopFail ev).saved = some rec ∧
      rec.actionLog = (agentRun maxSteps preLoopFail ev).actionLog ∧
      rec.totalSteps = (agentRun maxSteps preLoopFail ev).currentStep ∧
      rec.status = getStatus (agentRun maxSteps preLoopFail ev).actionLog
        (agentRun maxSteps preLoopFail ev).currentStep maxSteps) ∧
    (preLoopFail = none →
      ∃ tail, (agentRun maxSteps preLoopFail ev).actionLog =
        (runSteps ev maxSteps 0 []).2.1 ++ tail) := by
  cases preLoopFail with
  | some msg =>
      refine ⟨rfl, ⟨_, rfl, rfl, rfl, rfl⟩, ?_⟩
      intro h
      cases h
  | none =>
      refine ⟨rfl, ⟨_, rfl, rfl, rfl, rfl⟩, ?_⟩
      intro _
      cases hexc : (runSteps ev maxSteps 0 []).2.2 with
      | none => exact ⟨[], by simp [agentRun, hexc]⟩
      | some msg =>
          exact ⟨[errorLogEntry (runSteps ev maxSteps 0 []).1 msg],
            by simp [agentRun, hexc]⟩

/-- Witness for C1 at a concrete two-step run whose second iteration
throws. -/
theorem C1_close_and_persist_on_every_exit_witness :
    (agentRun 2 none (fun i => if i = 1 then
        StepEvent.acts { action_type := "click" } (Except.ok { success := true })
      else StepEvent.throws "page crashed")).browserClosed = true ∧
    (∃ tail, (agentRun 2 none (fun i => if i = 1 then
        StepEvent.acts { action_type := "click" } (Except.ok { success := true })
      else StepEvent.throws "page crashed")).actionLog =
      (runSteps (fun i => if i = 1 then
        StepEvent.acts { action_type := "click" } (Except.ok { success := true })
      else StepEvent.throws "page crashed") 2 0 []).2.1 ++ tail) :=
  ⟨(C1_close_and_persist_on_every_exit 2 none _).1,
   (C1_close_and_persist_on_every_exit 2 none _).2.2 rfl⟩

/-- C2 counterexample: with a configured maximum of 0 and no terminal action
and no exception, the loop indeed performs 0 iterations and appends 0
entries, but the final status is `no_actions`, not `max_steps_reached` as
the claim states for every configured maximum. -/
theorem C2_max_steps_zero_counterexample :
    (agentRun 0 none (fun _ => StepEvent.acts { action_type := "click" }
        (Except.ok { success := true }))).saved =
      some { totalSteps := 0, status := "no_actions", actionLog := [] } ∧
    "no_actions" ≠ "max_steps_reached" :=
  ⟨rfl, by decide⟩

/-- C2 (amended): for every configured maximum `m ≥ 1`, if every iteration
decides a registered non-terminal action and nothing throws, the loop
performs exactly `m` iterations, the step counter rises by exactly 1 per
iteration from 0 (the entry of index `k` carries step `k + 1`), exactly `m`
log entries are appended, and the persisted status is `max_steps_reached`. -/
theorem C2_budget_exhaustion (m : Nat) (ev : Nat → StepEvent)
    (a : Nat → Action) (x : Nat → Except String ExecOutcome)
    (hm : 1 ≤ m)
    (hev : ∀ i, ev i = StepEvent.acts (a i) (x i))
    (hreg : ∀ i, (registryGet (a i).action_type).isSome = true)
    (hnt : ∀ i, isTerminalKind (a i).action_type = false) :
    (agentRun m none ev).currentStep = m ∧
    (agentRun m none ev).actionLog.length = m ∧
    (∀ k, k < m → ∃ e, (agentRun m none ev).actionLog.get? k = some e ∧
      e.step = k + 1) ∧
    (∃ rec, (agentRun m none ev).saved = some rec ∧
      rec.status = "max_steps_reached") := by
  obtain ⟨m', rfl⟩ : ∃ m', m = m' + 1 := ⟨m - 1, by omega⟩
  have hrun := runSteps_nonterminal ev a x hev hnt (m' + 1) 0 []
  have hL : (agentRun (m' + 1) none ev).actionLog =
      (List.range (m' + 1)).map (fun j => nthEntry a x (0 + j + 1)) := by
    simp [agentRun, hrun]
  have hstep : (agentRun (m' + 1) none ev).currentStep = m' + 1 := by
    simp [agentRun, hrun]
  have hlen : (agentRun (m' + 1) none ev).actionLog.length = m' + 1 := by
    rw [hL]; simp
  refine ⟨hstep, hlen, ?_, ?_⟩
  · intro k hk
    refine ⟨nthEntry a x (0 + k + 1), ?_, by simp [nthEntry, stepLogEntry]⟩
    rw [hL, List.get?_map, List.get?_range hk]
    rfl
  · have hlast : (agentRun (m' + 1) none ev).actionLog.getLast? =
        some (nthEntry a x (0 + m' + 1)) := by
      rw [hL, List.range_succ, List.map_append]
      simp [List.getLast?_concat]
    have hkind := registered_nonterminal_kind
      (hreg (0 + m' + 1)) (hnt (0 + m' + 1))
    have hst : getStatus (agentRun (m' + 1) none ev).actionLog
        (agentRun (m' + 1) none ev).currentStep (m' + 1) = "max_steps_reached" := by
      refine getStatus_max hlast ?_ ?_ ?_ (by rw [hstep])
      · simpa [nthEntry, stepLogEntry] using hkind.1
      · simpa [nthEntry, stepLogEntry] using hkind.2.1
      · simpa [nthEntry, stepLogEntry] using hkind.2.2
    exact ⟨_, rfl, hst⟩

/-- Witness for C2 at maximum 3 with a constant failing click per step:
3 iterations, 3 entries, steps 1,2,3, status `max_steps_reached`. -/
theorem C2_budget_exhaustion_witness :
    (agentRun 3 none (fun _ => StepEvent.acts { action_type := "click" }
        (Except.error "no such element"))).currentStep = 3 ∧
    (agentRun 3 none (fun _ => StepEvent.acts { action_type := "click" }
        (Except.error "no such element"))).actionLog.length = 3 ∧
    (∃ rec, (agentRun 3 none (fun _ => StepEvent.acts { action_type := "click" }
        (Except.error "no such element"))).saved = some rec ∧
      rec.status = "max_steps_reached") := by
  obtain ⟨h1, h2, _, h4⟩ := C2_budget_exhaustion 3
    (fun _ => StepEvent.acts { action_type := "click" }
      (Except.error "no such element"))
    (fun _ => { action_type := "click" })
    (fun _ => Except.error "no such element")
    (by omega) (fun _ => rfl)
    (fun _ => (by decide : (registryGet "click").isSome = true))
    (fun _ => (by decide : isTerminalKind "click" = false))
  exact ⟨h1, h2, h4⟩

/-- C6 counterexample: a run whose single allowed step executes a successful
`complete` ends with step count equal to the configured maximum, yet the
status is `completed`, not `max_steps_reached` — refuting the claim's
"max_steps_reached iff the step count reached the configured maximum". -/
theorem C6_priority_counterexample :
    (agentRun 1 none (fun _ => StepEvent.acts { action_type := "complete" }
        (Except.ok { success := true }))).currentStep = 1 ∧
    (∃ rec, (agentRun 1 none (fun _ => StepEvent.acts
        { action_type := "complete" }
        (Except.ok { success := true }))).saved = some rec ∧
      rec.status = "completed") ∧
    "completed" ≠ "max_steps_reached" :=
  ⟨rfl, ⟨_, rfl, rfl⟩, by decide⟩

/-- C6 (amended): the status persisted at save time is always one of the
five values `no_actions`, `completed`, `terminated`, `error`,
`max_steps_reached`, and is determined from the last log entry's kind and
the step count by priority — `no_actions` iff the log is empty, then
`completed`/`terminated`/`error` by the last entry's kind, and
`max_steps_reached` exactly when the last entry's kind is none of those
(in which case the step count has reached the configured maximum). -/
theorem C6_status_five_values (maxSteps : Nat) (preLoopFail : Option String)
    (ev : Nat → StepEvent) :
    StatusSpec (agentRun maxSteps preLoopFail ev).actionLog
      (agentRun maxSteps preLoopFail ev).currentStep maxSteps ∧
    (∃ rec, (agentRun maxSteps preLoopFail ev).saved = some rec ∧
      rec.status = getStatus (agentRun maxSteps preLoopFail ev).actionLog
        (agentRun maxSteps preLoopFail ev).currentStep maxSteps) := by
  cases preLoopFail with
  | some msg =>
      constructor
      · apply statusSpec_of
        intro e hlast _ _ h3
        have he : errorLogEntry 0 msg = e := by
          have : (agentRun maxSteps (some msg) ev).actionLog =
              [errorLogEntry 0 msg] := rfl
          rw [this] at hlast
          simpa using hlast
        rw [← he] at h3
        exact absurd rfl h3
      · exact ⟨_, rfl, rfl⟩
  | none =>
      constructor
      · apply statusSpec_of
        intro e hlast h1 h2 h3
        cases hexc : (runSteps ev maxSteps 0 []).2.2 with
        | some msg =>
            have hL : (agentRun maxSteps none ev).actionLog =
                (runSteps ev maxSteps 0 []).2.1 ++
                  [errorLogEntry (runSteps ev maxSteps 0 []).1 msg] := by
              simp [agentRun, hexc]
            rw [hL, List.getLast?_concat] at hlast
            have he : errorLogEntry (runSteps ev maxSteps 0 []).1 msg = e := by
              simpa using hlast
            rw [← he] at h3
            exact absurd rfl h3
        | none =>
            have hL : (agentRun maxSteps none ev).actionLog =
                (runSteps ev maxSteps 0 []).2.1 := by
              simp [agentRun, hexc]
            have hs : (agentRun maxSteps none ev).currentStep =
                (runSteps ev maxSteps 0 []).1 := rfl
            rw [hL] at hlast
            rcases runSteps_exit ev maxSteps 0 [] hexc with hstep | ⟨e', he', hterm⟩
            · rw [hs, hstep]; omega
            · rw [hlast] at he'
              have : e = e' := by simpa using he'
              rcases terminal_kind_eq (this ▸ hterm) with hk | hk
              · exact absurd hk h1
              · exact absurd hk h2
      · exact ⟨_, rfl, rfl⟩

/-- Witness for C6 at a concrete run: a two-step budget whose first step
terminates; the saved status is `terminated`. -/
theorem C6_status_five_values_witness :
    StatusSpec (agentRun 2 none (fun _ => StepEvent.acts
        { action_type := "terminate" } (Except.ok { success := true }))).actionLog
      (agentRun 2 none (fun _ => StepEvent.acts
        { action_type := "terminate" } (Except.ok { success := true }))).currentStep
      2 ∧
    (∃ rec, (agentRun 2 none (fun _ => StepEvent.acts
        { action_type := "terminate" }
        (Except.ok { success := true }))).saved = some rec ∧
      rec.status = "terminated") := by
  obtain ⟨h1, rec, hrec, hst⟩ := C6_status_five_values 2 none
    (fun _ => StepEvent.acts { action_type := "terminate" }
      (Except.ok { success := true }))
  exact ⟨h1, rec, hrec, by rw [hst]; rfl⟩

/-- C7: after the loop executes an action whose kind is terminal, it
performs no further iterations — regardless of every action's execution
outcome (success or failure), the log stops at the terminal entry and the
step counter freezes at that step. -/
theorem C7_terminal_actions_absorbing (m k : Nat) (ev : Nat → StepEvent)
    (a : Nat → Action) (x : Nat → Except String ExecOutcome)
    (hev : ∀ i, ev i = StepEvent.acts (a i) (x i))
    (hk : k < m)
    (hpre : ∀ j, j < k → isTerminalKind (a (j + 1)).action_type = false)
    (hterm : isTerminalKind (a (k + 1)).action_type = true) :
    (agentRun m none ev).currentStep = k + 1 ∧
    (agentRun m none ev).actionLog.length = k + 1 ∧
    (∃ e, (agentRun m none ev).actionLog.getLast? = some e ∧
      e.action_type = (a (k + 1)).action_type ∧
      isTerminalKind e.action_type = true) := by
  have hpre' : ∀ j, j < k →
      isTerminalKind (a (0 + j + 1)).action_type = false := by
    intro j hj; simpa using hpre j hj
  have hterm' : isTerminalKind (a (0 + k + 1)).action_type = true := by
    simpa using hterm
  have hrun := runSteps_first_terminal ev a x hev k m 0 [] hk hpre' hterm'
  have hstep : (agentRun m none ev).currentStep = k + 1 := by
    simp [agentRun, hrun]
  have hL : (agentRun m none ev).actionLog =
      (List.range (k + 1)).map (fun j => nthEntry a x (0 + j + 1)) := by
    simp [agentRun, hrun]
  refine ⟨hstep, by rw [hL]; simp, ?_⟩
  refine ⟨nthEntry a x (0 + k + 1), ?_, ?_, ?_⟩
  · rw [hL, List.range_succ, List.map_append]
    simp [List.getLast?_concat]
  · simp [nthEntry, stepLogEntry]
  · simpa [nthEntry, stepLogEntry] using hterm'

/-- Witness for C7: budget 5, a failing click at step 1, then `terminate`
at step 2 whose oracle is irrelevant — the run stops at step 2 with 2
entries. -/
theorem C7_terminal_actions_absorbing_witness :
    (agentRun 5 none (fun i => StepEvent.acts
        (if i = 2 then { action_type := "terminate" }
         else { action_type := "click" })
        (Except.error "handler threw"))).currentStep = 2 ∧
    (agentRun 5 none (fun i => StepEvent.acts
        (if i = 2 then { action_type := "terminate" }
         else { action_type := "click" })
        (Except.error "handler threw"))).actionLog.length = 2 := by
  obtain ⟨h1, h2, _⟩ := C7_terminal_actions_absorbing 5 1
    (fun i => StepEvent.acts
      (if i = 2 then { action_type := "terminate" }
       else { action_type := "click" })
      (Except.error "handler threw"))
    (fun i => if i = 2 then { action_type := "terminate" }
      else { action_type := "click" })
    (fun _ => Except.error "handler threw")
    (fun _ => rfl) (by omega)
    (by intro j hj; interval_cases j; decide)
    (by decide)
  exact ⟨h1, h2⟩

/-- C9: the terminal handlers never fail — `complete` always returns
success with the extracted data (or null) as payload, `terminate` always
returns success with the reason (default `Task terminated`), and therefore
the final log entry of any run that ended via a terminal action records
`success: true`. -/
theorem C9_terminal_handlers_never_fail :
    (∀ a : Action, (completeExecute a).success = true ∧
      (completeExecute a).data = some (match a.extracted_data with
        | some v => v
        | none => Value.null)) ∧
    (∀ a : Action, (terminateExecute a).success = true ∧
      (terminateExecute a).data = some (Value.obj
        [("terminated", Value.bool true),
         ("reason", Value.str (a.reason.getD "Task terminated"))])) ∧
    (∀ (maxSteps : Nat) (preLoopFail : Option String) (ev : Nat → StepEvent)
       (e : LogEntry),
      (agentRun maxSteps preLoopFail ev).actionLog.getLast? = some e →
      isTerminalKind e.action_type = true →
      ∃ r, e.result = some r ∧ r.success = true) := by
  refine ⟨fun a => ⟨rfl, rfl⟩, fun a => ⟨rfl, rfl⟩, ?_⟩
  intro maxSteps preLoopFail ev e hlast hterm
  cases preLoopFail with
  | some msg =>
      have he : errorLogEntry 0 msg = e := by
        have : (agentRun maxSteps (some msg) ev).actionLog =
            [errorLogEntry 0 msg] := rfl
        rw [this] at hlast
        simpa using hlast
      rw [← he] at hterm
      exact absurd hterm ((by decide : ¬isTerminalKind "error" = true))
  | none =>
      cases hexc : (runSteps ev maxSteps 0 []).2.2 with
      | some msg =>
          have hL : (agentRun maxSteps none ev).actionLog =
              (runSteps ev maxSteps 0 []).2.1 ++
                [errorLogEntry (runSteps ev maxSteps 0 []).1 msg] := by
            simp [agentRun, hexc]
          rw [hL, List.getLast?_concat] at hlast
          have he : errorLogEntry (runSteps ev maxSteps 0 []).1 msg = e := by
            simpa using hlast
          rw [← he] at hterm
          exact absurd hterm ((by decide : ¬isTerminalKind "error" = true))
      | none =>
          have hL : (agentRun maxSteps none ev).actionLog =
              (runSteps ev maxSteps 0 []).2.1 := by
            simp [agentRun, hexc]
          rw [hL] at hlast
          have hmem := mem_of_getLast?_eq_some hlast
          rcases runSteps_good ev maxSteps 0 [] e hmem with h | h
          · simp at h
          · obtain ⟨r, hr, himp⟩ := h
            exact ⟨r, hr, himp hterm⟩

/-- Witness for C9: a run ending via `terminate` at step 1; its last entry
records a successful result. -/
theorem C9_terminal_handlers_never_fail_witness :
    ∃ r, (stepLogEntry 1 { action_type := "terminate" }
      (executeAction { action_type := "terminate" }
        (Except.ok { success := true }))).result = some r ∧
      r.success = true :=
  C9_terminal_handlers_never_fail.2.2 3 none
    (fun _ => StepEvent.acts { action_type := "terminate" }
      (Except.ok { success := true }))
    (stepLogEntry 1 { action_type := "terminate" }
      (executeAction { action_type := "terminate" }
        (Except.ok { success := true })))
    rfl (by decide)

end BrowserAgent
